import Mathlib

/-!
Verification of `freezer.py` (the `Freeze` source-transformation utility).

The file shallowly embeds the data model and the operations of the source:
Python values with their runtime classes, the scope dictionaries captured
from the caller frame, the `_constantTypes` allow-list, the decorator
stripping logic, the `ConstantReplacer` AST transformer and the
re-synthesis (exec + rebinding) step.  Theorems about the claims of the
specification follow the definitions.
-/

namespace Freezer

/-- A Python runtime value, as far as the freezer inspects it: its concrete
class, the method-resolution order of that class (the class name followed by
the names of its ancestors, ending with `object`), and an abstract payload
distinguishing concrete values of the same class. -/
structure PyValue where
  cls : String
  mro : List String
  payload : Int
  deriving DecidableEq, Repr

/-- Convenient constructor for a value of a built-in class, whose mro is the
class itself followed by `object`. -/
def PyValue.builtin (c : String) (p : Int) : PyValue :=
  { cls := c, mro := [c, "object"], payload := p }

/-- The names of the types in the tuple `_constantTypes` at line 18 of
`freezer.py`: `(int, float, complex, str, tuple, bytes, bool, type(None))`. -/
def constantTypeNames : List String :=
  ["int", "float", "complex", "str", "tuple", "bytes", "bool", "NoneType"]

/-- `isinstance(v, _constantTypes)`: true when the class of `v` or one of its
ancestor classes is one of the allow-listed types. -/
def isinstanceConstant (v : PyValue) : Bool :=
  v.mro.any (fun c => constantTypeNames.contains c)

/-- The distinguished runtime object for the `Freeze` function itself, used by
the identity tests `scope[deco.id] is Freeze` at lines 105 and 108. -/
def freezeFnObj : PyValue :=
  { cls := "function", mro := ["function", "object"], payload := 1000 }

/-- A Python dict from identifiers to values, modelled as an association list
in insertion order.  Python dicts never hold a key twice; lemmas that need
this take a `Nodup` hypothesis on the key list. -/
abbrev Scope := List (String × PyValue)

/-- `d[k]` as an option: the first binding of `k`. -/
def slookup (s : Scope) (k : String) : Option PyValue :=
  match s with
  | [] => none
  | (k₁, v) :: rest => if k₁ = k then some v else slookup rest k

/-- The key list of a scope. -/
def skeys (s : Scope) : List String :=
  (s : List (String × PyValue)).map Prod.fst

/-- `d[k] = v`: replace the binding if the key is present, append it
otherwise — the update semantics of a Python dict. -/
def dictSet (s : Scope) (k : String) (v : PyValue) : Scope :=
  if (slookup s k).isSome then
    (s : List (String × PyValue)).map (fun kv => if kv.1 = k then (k, v) else kv)
  else
    s ++ [(k, v)]

/-- `base.update(upd)`: set every binding of `upd` into `base`, in order. -/
def dictUpdate (base upd : Scope) : Scope :=
  (upd : List (String × PyValue)).foldl (fun acc kv => dictSet acc kv.1 kv.2) base

/-- Scope Capture, lines 82-87 of `freezer.py`:

    if enforce_globals:
        scope = frame.f_locals.copy()
        scope.update(frame.f_globals)
    else:
        scope = frame.f_globals.copy()
        scope.update(frame.f_locals)
-/
def captureScope (enforce_globals : Bool) (globalsNS localsNS : Scope) : Scope :=
  if enforce_globals then dictUpdate localsNS globalsNS
  else dictUpdate globalsNS localsNS

/-- `del d[k]`, for dicts with unique keys: drop the binding of `k`. -/
def eraseKey (s : Scope) (k : String) : Scope :=
  (s : List (String × PyValue)).filter (fun kv => decide (kv.1 ≠ k))

/-- Whether Constant Filtering keeps an entry: lines 137-141 delete the entry
unless its value is an instance of `_constantTypes` and its key is not in
`ignore`. -/
def keepEntry (ignore : List String) (kv : String × PyValue) : Bool :=
  isinstanceConstant kv.2 && !(ignore.contains kv.1)

/-- Constant Filtering, lines 137-141 of `freezer.py`, with the examination
order made explicit: the loop iterates over the items of `scope.copy()` (the
list `order`) and deletes the offending keys from the live `scope`.

    for key, value in scope.copy().items():
        if not isinstance(value, _constantTypes):
            del scope[key]
        elif key in ignore:
            del scope[key]
-/
def scopeFilterOrd (scope : Scope) (ignore : List String)
    (order : List (String × PyValue)) : Scope :=
  order.foldl (fun acc kv => if keepEntry ignore kv then acc else eraseKey acc kv.1) scope

/-- Constant Filtering as the source runs it: the examination order is the
scope itself (its own `.copy().items()`). -/
def scopeFilter (scope : Scope) (ignore : List String) : Scope :=
  scopeFilterOrd scope ignore scope

/-- The expression context of an `ast.Name` node: `Load` for reads, `Store`
for write targets (assignment targets, loop variables), `Del` for deletions. -/
inductive Ctx
  | load
  | store
  | del
  deriving DecidableEq, Repr

/-- Expression nodes of the embedded AST fragment: identifier references,
constants, tuple displays and binary operations. -/
inductive Expr
  | name (id : String) (ctx : Ctx)
  | const (value : PyValue)
  | tuple (elts : List Expr) (ctx : Ctx)
  | binOp (left : Expr) (right : Expr)

/-- Statement nodes of the embedded AST fragment; `funcDefStmt` covers a
method definition nested in a class body. -/
inductive Stmt
  | assign (targets : List Expr) (value : Expr)
  | ret (value : Expr)
  | exprStmt (value : Expr)
  | globalStmt (names : List String)
  | funcDefStmt (name : String) (body : List Stmt)

/-- `ConstantReplacer.visit_Name`, lines 34-42 of `freezer.py`:

    if node.id in self.freeze_keys:
        if isinstance(node.ctx, ast.Load):
            return ast.Constant(value=self.freeze_data[node.id], kind=None)
        else:
            del self.freeze_data[node.id]
            return node
    return node

The mutable `freeze_data` dict is threaded explicitly. -/
def visit_Name (fd : Scope) (id : String) (ctx : Ctx) : Expr × Scope :=
  match slookup fd id with
  | some v =>
      if ctx = Ctx.load then (Expr.const v, fd)
      else (Expr.name id ctx, eraseKey fd id)
  | none => (Expr.name id ctx, fd)

mutual

/-- The `ConstantReplacer` walk over one expression.  `ast.NodeTransformer`
visits child fields in declaration order, so the dict state flows left to
right through the children. -/
def visitExpr (fd : Scope) : Expr → Expr × Scope
  | Expr.name id ctx => visit_Name fd id ctx
  | Expr.const v => (Expr.const v, fd)
  | Expr.tuple es ctx =>
      let p := visitExprList fd es
      (Expr.tuple p.1 ctx, p.2)
  | Expr.binOp l r =>
      let pl := visitExpr fd l
      let pr := visitExpr pl.2 r
      (Expr.binOp pl.1 pr.1, pr.2)

/-- The walk over a list of child expressions, in order. -/
def visitExprList (fd : Scope) : List Expr → List Expr × Scope
  | [] => ([], fd)
  | e :: rest =>
      let p := visitExpr fd e
      let q := visitExprList p.2 rest
      (p.1 :: q.1, q.2)

end

mutual

/-- The `ConstantReplacer` walk over one statement.  For `ast.Assign` the
field order is `targets` then `value`, so write targets are visited before
the right-hand side.  `visit_Global` (lines 44-45) returns `None`, which
`NodeTransformer` interprets as deletion of the statement. -/
def visitStmt (fd : Scope) : Stmt → Option Stmt × Scope
  | Stmt.assign targets value =>
      let pt := visitExprList fd targets
      let pv := visitExpr pt.2 value
      (some (Stmt.assign pt.1 pv.1), pv.2)
  | Stmt.ret value =>
      let p := visitExpr fd value
      (some (Stmt.ret p.1), p.2)
  | Stmt.exprStmt value =>
      let p := visitExpr fd value
      (some (Stmt.exprStmt p.1), p.2)
  | Stmt.globalStmt _ => (none, fd)
  | Stmt.funcDefStmt n body =>
      let p := visitBody fd body
      (some (Stmt.funcDefStmt n p.1), p.2)

/-- The walk over a statement list; statements for which the transformer
returned `None` are removed from the list. -/
def visitBody (fd : Scope) : List Stmt → List Stmt × Scope
  | [] => ([], fd)
  | s :: rest =>
      let p := visitStmt fd s
      let q := visitBody p.2 rest
      (match p.1 with
       | some s₁ => s₁ :: q.1
       | none => q.1, q.2)

end

/-- The Python exceptions that the freezer code can produce or propagate. -/
inductive PyExn
  | freezeError (msg : String)
  | attrError (msg : String)
  | keyError (key : String)
  | nameError (id : String)
  deriving DecidableEq, Repr

/-- A decorator entry of a parsed `decorator_list`, by syntactic form:
a bare name (`@Freeze`), a call with a bare-name callee (`@Freeze(...)`),
a bare attribute reference (`@mod.deco`), or a call with an attribute
callee (`@mod.deco(...)`). -/
inductive Deco
  | name (id : String)
  | call (funcId : String)
  | attr (obj : String) (field : String)
  | callAttr (obj : String) (field : String)
  deriving DecidableEq, Repr

/-- The first loop at lines 104-110: scan the decorator list for the name
under which `Freeze` is stored, stopping at the first hit.

    for deco in astTgt.decorator_list:
        if isinstance(deco, ast.Name) and scope[deco.id] is Freeze:
            _self = deco.id
            break
        elif isinstance(deco, ast.Call) and scope[deco.func.id] is Freeze:
            _self = deco.func.id
            break

A `scope[...]` miss raises `KeyError`; a call whose callee is an attribute
reference has no `func.id` and raises `AttributeError`; decorators of other
forms match neither `isinstance` test and are skipped.  Returns `none` when
the loop finishes without a hit, leaving `_self` unbound. -/
def findSelf (scope : Scope) : List Deco → Except PyExn (Option String)
  | [] => Except.ok none
  | Deco.name id :: rest =>
      match slookup scope id with
      | none => Except.error (PyExn.keyError id)
      | some v =>
          if v = freezeFnObj then Except.ok (some id) else findSelf scope rest
  | Deco.call funcId :: rest =>
      match slookup scope funcId with
      | none => Except.error (PyExn.keyError funcId)
      | some v =>
          if v = freezeFnObj then Except.ok (some funcId) else findSelf scope rest
  | Deco.attr _ _ :: rest => findSelf scope rest
  | Deco.callAttr _ _ :: _ =>
      Except.error (PyExn.attrError "Attribute object has no field id")

/-- The second loop at lines 112-120: rebuild the decorator list, keeping
bare-name and call-with-bare-name entries whose name differs from `_self`.

    newDecoList = []
    for deco in astTgt.decorator_list:
        if isinstance(deco, ast.Name) and deco.id != _self:
            newDecoList.append(deco)
        elif isinstance(deco, ast.Call) and deco.func.id != _self:
            newDecoList.append(deco)

Reading `_self` when the first loop never bound it raises `NameError`, but
only once a conjunct actually evaluates it (the `isinstance` test
short-circuits).  A call with an attribute callee again raises
`AttributeError` at `deco.func.id`; a bare attribute entry matches neither
branch and is silently dropped. -/
def buildNewDecoList (selfName : Option String) : List Deco → Except PyExn (List Deco)
  | [] => Except.ok []
  | Deco.name id :: rest =>
      match selfName with
      | none => Except.error (PyExn.nameError "_self")
      | some s =>
          match buildNewDecoList selfName rest with
          | Except.error e => Except.error e
          | Except.ok ds =>
              Except.ok (if id ≠ s then Deco.name id :: ds else ds)
  | Deco.call funcId :: rest =>
      match selfName with
      | none => Except.error (PyExn.nameError "_self")
      | some s =>
          match buildNewDecoList selfName rest with
          | Except.error e => Except.error e
          | Except.ok ds =>
              Except.ok (if funcId ≠ s then Deco.call funcId :: ds else ds)
  | Deco.attr _ _ :: rest => buildNewDecoList selfName rest
  | Deco.callAttr _ _ :: _ =>
      Except.error (PyExn.attrError "Attribute object has no field id")

/-- The body of the parsed target actually handed to `ConstantReplacer`:
the statement list of a def, or the body expression of an extracted
lambda. -/
inductive TgtBody
  | stmts (b : List Stmt)
  | lamb (e : Expr)

/-- The first statement of the parsed source of the target
(`astMod.body[0]`): a decorated function definition, a decorated class
definition, an assignment, or a bare expression statement.  For an
assignment, `callValue` is `some (calleeName, firstArgBody)` when the
assigned value is a call expression with at least one positional argument (a
lambda with the given body), and `none` when the value is not a call. -/
inductive TopNode
  | funcDef (name : String) (decorators : List Deco) (body : List Stmt)
  | classDef (name : String) (decorators : List Deco) (body : List Stmt)
  | assignStmt (target : String) (callValue : Option (String × Expr))
  | exprStmt

/-- The outcome of Self-Reference Stripping: whether the target was a def
(`isNotAssign`), the rebuilt decorator list, and the body to transform. -/
structure StripResult where
  isNotAssign : Bool
  newDecoList : List Deco
  tbody : TgtBody

/-- Self-Reference Stripping, lines 103-131 of `freezer.py`.  For def nodes
both loops run inside the `try`; an `AttributeError` raised there is caught,
but since the node is not an `ast.Assign` it is re-raised unchanged, so
errors propagate in either case (`KeyError` and `NameError` are never
caught).  For nodes without a `decorator_list` field, accessing it raises
`AttributeError`; the handler extracts `astTgt.value.args[0]` when the node
is an assignment whose value is a call — the callee of that call is never
inspected — and re-raises otherwise. -/
def stripSelfReference (scope : Scope) : TopNode → Except PyExn StripResult
  | TopNode.funcDef _ decos body =>
      match findSelf scope decos with
      | Except.error e => Except.error e
      | Except.ok selfName =>
          match buildNewDecoList selfName decos with
          | Except.error e => Except.error e
          | Except.ok ds =>
              Except.ok { isNotAssign := true, newDecoList := ds,
                          tbody := TgtBody.stmts body }
  | TopNode.classDef _ decos body =>
      match findSelf scope decos with
      | Except.error e => Except.error e
      | Except.ok selfName =>
          match buildNewDecoList selfName decos with
          | Except.error e => Except.error e
          | Except.ok ds =>
              Except.ok { isNotAssign := true, newDecoList := ds,
                          tbody := TgtBody.stmts body }
  | TopNode.assignStmt _ (some callValue) =>
      Except.ok { isNotAssign := false, newDecoList := [],
                  tbody := TgtBody.lamb callValue.2 }
  | TopNode.assignStmt _ none =>
      Except.error (PyExn.attrError "value object has no field args")
  | TopNode.exprStmt =>
      Except.error (PyExn.attrError "object has no field decorator_list")

/-- A Python callable object as the rebinding step sees it: a function
carries a code object and the namespace its `__globals__` points at; a class
carries its name, its (executable) body, and whatever was stored under a
`__code__` class attribute, if anything (classes have no such attribute by
default). -/
inductive PyObject
  | function (code : TgtBody) (globalsNS : String)
  | pyClass (name : String) (body : TgtBody) (codeAttr : Option TgtBody)

/-- Reading `obj.__code__`: functions have a code object; a plain class does
not, so the lookup raises `AttributeError`. -/
def getattrCode : PyObject → Except PyExn TgtBody
  | PyObject.function c _ => Except.ok c
  | PyObject.pyClass n _ none =>
      Except.error (PyExn.attrError ("type object " ++ n ++ " has no field code"))
  | PyObject.pyClass _ _ (some c) => Except.ok c

/-- The object defined by `exec(compile(astMod, ...))` at line 155.  The call
passes no globals or locals, so the module tree executes in the frame of
`Freeze` itself: a function defined there receives the freezer module
namespace as its `__globals__`; a class is simply created. -/
def execDefine (freezerNS : String) (node : TopNode) (newBody : TgtBody) : PyObject :=
  match node with
  | TopNode.classDef n _ _ => PyObject.pyClass n newBody none
  | _ => PyObject.function newBody freezerNS

/-- The rebinding step, lines 157-161 of `freezer.py`:

    if isNotAssign:
        fnc.__code__ = locals()[newFnc.name].__code__
    else:
        fnc = locals()[astMod.body[0].targets[0].id]

The right-hand side `locals()[...].__code__` is evaluated first, so its
`AttributeError` fires before anything is assigned. -/
def rebind (isNotAssign : Bool) (fnc : PyObject) (newObj : PyObject) :
    Except PyExn PyObject :=
  if isNotAssign then
    match getattrCode newObj with
    | Except.error e => Except.error e
    | Except.ok c =>
        match fnc with
        | PyObject.function _ g => Except.ok (PyObject.function c g)
        | PyObject.pyClass n b _ => Except.ok (PyObject.pyClass n b (some c))
  else Except.ok newObj

/-- The keyword options of `Freeze` (line 48-52); `depth` only selects the
caller frame and the frame namespaces are passed in explicitly here. -/
structure FreezeArgs where
  enforce_globals : Bool := false
  overwrite_with : Scope := []
  ignore : List String := []

/-- The transformation pipeline of `Freeze` after source retrieval, for a
target parsed as `node` with runtime object `fnc` defined while the freezer
module namespace is `freezerNS`: Scope Capture (lines 82-87), Self-Reference
Stripping (103-131), Constant Filtering (137-141), Tree Substitution (143),
and Re-synthesis (148-161). -/
def freezeTransform (args : FreezeArgs) (globalsNS localsNS : Scope)
    (node : TopNode) (fnc : PyObject) (freezerNS : String) :
    Except PyExn PyObject :=
  let scope := captureScope args.enforce_globals globalsNS localsNS
  match stripSelfReference scope node with
  | Except.error e => Except.error e
  | Except.ok info =>
      let fscope := scopeFilter scope args.ignore
      let newBody :=
        match info.tbody with
        | TgtBody.stmts b => TgtBody.stmts (visitBody fscope b).1
        | TgtBody.lamb e => TgtBody.lamb (visitExpr fscope e).1
      rebind info.isNotAssign fnc (execDefine freezerNS node newBody)

/-- The local variables of `Freeze` that have been bound by the time the
`except Exception as error:` handler at lines 91-93 runs (the names assigned
in the signature and in the `try` block, and the handler name `error`).  The
name `e` is a local of `Freeze` — it is assigned by the later
`except AttributeError as e:` clause at line 122 — but it is not yet bound
here. -/
def handlerBoundLocals : List String :=
  ["fnc", "enforce_globals", "overwrite_with", "ignore", "depth",
   "src", "source_code", "astMod", "astTgt", "frame", "scope", "error"]

/-- The exception produced by the handler at lines 91-93:

    except Exception as error:
        raise FreezeError("while trying to freeze the function "
            f"`lbrace fnc.__qualname__ rbrace`, an error of type "
            f"lbrace type(e) rbrace occured.")

Building the message reads the local `e`; if that name is unbound at this
point, the read itself raises `UnboundLocalError` (a `NameError`) and the
`FreezeError` is never constructed. -/
def freezeExceptHandler (qualname : String) (underlyingType : String) : PyExn :=
  if handlerBoundLocals.contains "e" then
    PyExn.freezeError ("while trying to freeze the function " ++ qualname ++
      ", an error of type " ++ underlyingType ++ " occured.")
  else
    PyExn.nameError "e"

/-- Source Retrieval with its error handling, lines 63-96: when
`inspect.getsource` or the raw `ast.parse` fails, control reaches the
`except Exception` handler and whatever that handler raises is what the
caller sees. -/
def freezeSourcePhase (retrievalOk : Bool) (qualname : String)
    (underlyingType : String) : Except PyExn Unit :=
  if retrievalOk then Except.ok ()
  else Except.error (freezeExceptHandler qualname underlyingType)

/-- A plain `int` value. -/
def intV (n : Int) : PyValue := PyValue.builtin "int" n

/-- The captured scope of the worked example of the specification:
`X = 5` at decoration time. -/
def exampleScopeC1 : Scope := [("X", intV 5)]

/-- The body `a = X; X = 10; b = X; return (a, b)` of the worked example. -/
def exampleBodyC1 : List Stmt :=
  [Stmt.assign [Expr.name "a" Ctx.store] (Expr.name "X" Ctx.load),
   Stmt.assign [Expr.name "X" Ctx.store] (Expr.const (intV 10)),
   Stmt.assign [Expr.name "b" Ctx.store] (Expr.name "X" Ctx.load),
   Stmt.ret (Expr.tuple [Expr.name "a" Ctx.load, Expr.name "b" Ctx.load] Ctx.load)]

/-- The transformed body the claim predicts: the read of `X` before the
write is inlined to `5`, the write target and the read after it keep the
name `X`. -/
def expectedBodyC1 : List Stmt :=
  [Stmt.assign [Expr.name "a" Ctx.store] (Expr.const (intV 5)),
   Stmt.assign [Expr.name "X" Ctx.store] (Expr.const (intV 10)),
   Stmt.assign [Expr.name "b" Ctx.store] (Expr.name "X" Ctx.load),
   Stmt.ret (Expr.tuple [Expr.name "a" Ctx.load, Expr.name "b" Ctx.load] Ctx.load)]

/-- A user-defined strict subclass instance of `int` (`class MyInt(int)`),
as inspected by the `isinstance` test. -/
def myIntV : PyValue := { cls := "MyInt", mro := ["MyInt", "int", "object"], payload := 7 }

/-- The keys of the entries of `order` that Constant Filtering deletes. -/
def badKeys (ignore : List String) (order : List (String × PyValue)) : List String :=
  (order.filter (fun kv => !(keepEntry ignore kv))).map Prod.fst

/-- The bare name a decorator entry exposes to the loops at lines 104-120:
`deco.id` for an `ast.Name`, `deco.func.id` for an `ast.Call` with a name
callee, nothing for the other syntactic forms. -/
def decoId : Deco → Option String
  | Deco.name id => some id
  | Deco.call funcId => some funcId
  | Deco.attr _ _ => none
  | Deco.callAttr _ _ => none

end Freezer

namespace Freezer

theorem slookup_eq_none (s : Scope) (k : String) (h : k ∉ skeys s) :
    slookup s k = none := by
  induction s with
  | nil => rfl
  | cons kv rest ih =>
      simp only [skeys, List.map_cons, List.mem_cons, not_or] at h
      simp only [slookup]
      rw [if_neg (fun hh : kv.1 = k => h.1 hh.symm)]
      exact ih (by simpa [skeys] using h.2)

theorem mem_skeys_of_slookup (s : Scope) (k : String) (v : PyValue)
    (h : slookup s k = some v) : k ∈ skeys s := by
  by_contra hk
  rw [slookup_eq_none s k hk] at h
  exact Option.noConfusion h

theorem slookup_mapSet (s : Scope) (k : String) (v : PyValue) (k₁ : String) :
    slookup ((s : List (String × PyValue)).map
        (fun kv => if kv.1 = k then (k, v) else kv)) k₁ =
      if k₁ = k then (slookup s k).map (fun _ => v) else slookup s k₁ := by
  induction s with
  | nil => by_cases h : k₁ = k <;> simp [slookup, h]
  | cons kv rest ih =>
      obtain ⟨k₂, v₂⟩ := kv
      simp only [List.map_cons]
      by_cases hk : k₂ = k
      · rw [if_pos hk]
        by_cases h1 : k₁ = k
        · rw [if_pos h1]
          simp only [slookup]
          rw [if_pos h1.symm, if_pos hk]
          rfl
        · rw [if_neg h1]
          simp only [slookup]
          rw [if_neg (fun hh : k = k₁ => h1 hh.symm),
            if_neg (fun hh : k₂ = k₁ => h1 ((hk.symm.trans hh).symm)),
            ih, if_neg h1]
      · rw [if_neg hk]
        by_cases h3 : k₂ = k₁
        · have h1 : ¬ k₁ = k := fun hh => hk (h3.trans hh)
          rw [if_neg h1]
          simp only [slookup]
          rw [if_pos h3, if_pos h3]
        · by_cases h1 : k₁ = k
          · rw [if_pos h1]
            simp only [slookup]
            rw [if_neg h3, if_neg hk, ih, if_pos h1]
          · rw [if_neg h1]
            simp only [slookup]
            rw [if_neg h3, if_neg h3, ih, if_neg h1]

theorem slookup_append_single (s : Scope) (k : String) (v : PyValue) (k₁ : String) :
    slookup (s ++ [(k, v)]) k₁ =
      if (slookup s k₁).isSome then slookup s k₁
      else if k = k₁ then some v else none := by
  induction s with
  | nil => by_cases h : k = k₁ <;> simp [slookup, h]
  | cons kv rest ih =>
      by_cases h1 : kv.1 = k₁
      · simp [slookup, h1]
      · simp [slookup, h1, ih]

theorem slookup_dictSet_self (s : Scope) (k : String) (v : PyValue) :
    slookup (dictSet s k v) k = some v := by
  unfold dictSet
  by_cases h : (slookup s k).isSome
  · rw [if_pos h, slookup_mapSet, if_pos rfl]
    rcases Option.isSome_iff_exists.mp h with ⟨w, hw⟩
    rw [hw]
    rfl
  · rw [if_neg h, slookup_append_single]
    rw [Option.not_isSome_iff_eq_none] at h
    rw [h]
    simp

theorem slookup_dictSet_ne (s : Scope) (k : String) (v : PyValue) (k₁ : String)
    (h : k₁ ≠ k) : slookup (dictSet s k v) k₁ = slookup s k₁ := by
  unfold dictSet
  by_cases hs : (slookup s k).isSome
  · rw [if_pos hs, slookup_mapSet, if_neg h]
  · rw [if_neg hs, slookup_append_single]
    by_cases h1 : (slookup s k₁).isSome
    · rw [if_pos h1]
    · rw [if_neg h1, if_neg (fun hh : k = k₁ => h hh.symm)]
      exact (Option.not_isSome_iff_eq_none.mp h1).symm

theorem slookup_dictUpdate (base upd : Scope) (k : String)
    (h : (skeys upd).Nodup) :
    slookup (dictUpdate base upd) k =
      match slookup upd k with
      | some v => some v
      | none => slookup base k := by
  induction upd generalizing base with
  | nil => simp [dictUpdate, slookup]
  | cons kv rest ih =>
      simp only [skeys, List.map_cons, List.nodup_cons] at h
      have step : dictUpdate base (kv :: rest) = dictUpdate (dictSet base kv.1 kv.2) rest := rfl
      rw [step, ih (dictSet base kv.1 kv.2) h.2]
      by_cases hk : kv.1 = k
      · cases hr : slookup rest k with
        | some w =>
            exact absurd (mem_skeys_of_slookup rest k w hr) (hk ▸ h.1)
        | none =>
            have hcons : slookup (kv :: rest) k = some kv.2 := by
              simp only [slookup]
              rw [if_pos hk]
            rw [hcons, hk, slookup_dictSet_self]
      · have hcons : slookup (kv :: rest) k = slookup rest k := by
          simp only [slookup]
          rw [if_neg hk]
        rw [hcons]
        cases hr : slookup rest k with
        | some w => rfl
        | none =>
            show slookup (dictSet base kv.1 kv.2) k = slookup base k
            exact slookup_dictSet_ne base kv.1 kv.2 k (fun hh => hk hh.symm)

theorem slookup_eraseKey_self (s : Scope) (k : String) :
    slookup (eraseKey s k) k = none := by
  induction s with
  | nil => rfl
  | cons kv rest ih =>
      simp only [eraseKey, List.filter_cons] at ih ⊢
      by_cases hk : kv.1 = k
      · rw [if_neg (by simp [hk])]
        exact ih
      · rw [if_pos (by simp [hk])]
        simp only [slookup]
        rw [if_neg hk]
        exact ih

theorem slookup_filter_keep (s : Scope) (p : String × PyValue → Bool) (k : String)
    (v : PyValue) (h : slookup s k = some v) (hp : p (k, v) = true) :
    slookup (s.filter p) k = some v := by
  induction s with
  | nil => exact absurd h (by simp [slookup])
  | cons kv rest ih =>
      simp only [slookup] at h
      by_cases hk : kv.1 = k
      · rw [if_pos hk] at h
        have hkv : kv = (k, v) := Prod.ext hk (Option.some.inj h)
        rw [List.filter_cons, if_pos (by rw [hkv]; exact hp)]
        simp only [slookup]
        rw [if_pos hk]
        exact h
      · rw [if_neg hk] at h
        rw [List.filter_cons]
        by_cases hpk : p kv = true
        · rw [if_pos hpk]
          simp only [slookup]
          rw [if_neg hk]
          exact ih h
        · rw [if_neg hpk]
          exact ih h

theorem scopeFilterOrd_eq (ignore : List String) (order : List (String × PyValue))
    (scope : Scope) :
    scopeFilterOrd scope ignore order =
      scope.filter (fun e => decide (e.1 ∉ badKeys ignore order)) := by
  induction order generalizing scope with
  | nil => simp [scopeFilterOrd, badKeys]
  | cons kv rest ih =>
      have step : scopeFilterOrd scope ignore (kv :: rest)
          = scopeFilterOrd (if keepEntry ignore kv then scope else eraseKey scope kv.1)
              ignore rest := rfl
      rw [step]
      by_cases hkeep : keepEntry ignore kv = true
      · rw [if_pos hkeep, ih]
        have hbad : badKeys ignore (kv :: rest) = badKeys ignore rest := by
          simp [badKeys, List.filter_cons, hkeep]
        rw [hbad]
      · rw [if_neg hkeep, ih]
        have hbad : badKeys ignore (kv :: rest) = kv.1 :: badKeys ignore rest := by
          simp [badKeys, List.filter_cons, hkeep]
        rw [hbad]
        unfold eraseKey
        rw [List.filter_filter]
        refine List.filter_congr ?_
        intro e _
        by_cases h1 : e.1 = kv.1
        · simp [h1]
        · simp [h1]

theorem entry_eq_of_nodup_keys (s : Scope) (h : (skeys s).Nodup)
    (a b : String × PyValue) (ha : a ∈ s) (hb : b ∈ s) (hk : a.1 = b.1) :
    a = b := by
  induction s with
  | nil => exact absurd ha (List.not_mem_nil a)
  | cons kv rest ih =>
      simp only [skeys, List.map_cons, List.nodup_cons] at h
      rcases List.mem_cons.mp ha with ha1 | ha1 <;>
        rcases List.mem_cons.mp hb with hb1 | hb1
      · exact ha1.trans hb1.symm
      · exact absurd (by
          have hm : b.1 ∈ List.map Prod.fst rest := List.mem_map_of_mem Prod.fst hb1
          rw [← hk, ha1] at hm
          exact hm) h.1
      · exact absurd (by
          have hm : a.1 ∈ List.map Prod.fst rest := List.mem_map_of_mem Prod.fst ha1
          rw [hk, hb1] at hm
          exact hm) h.1
      · exact ih (by simpa [skeys] using h.2) ha1 hb1

theorem mem_badKeys (ignore : List String) (order : List (String × PyValue))
    (k : String) :
    k ∈ badKeys ignore order ↔
      ∃ e ∈ order, keepEntry ignore e = false ∧ e.1 = k := by
  simp only [badKeys, List.mem_map, List.mem_filter, Bool.not_eq_eq_eq_not,
    Bool.not_true]
  constructor
  · rintro ⟨e, ⟨he, hkeep⟩, hfst⟩
    exact ⟨e, he, hkeep, hfst⟩
  · rintro ⟨e, he, hkeep, hfst⟩
    exact ⟨e, ⟨he, hkeep⟩, hfst⟩

theorem scopeFilterOrd_perm (scope : Scope) (ignore : List String)
    (order : List (String × PyValue)) (hperm : order.Perm scope)
    (h : (skeys scope).Nodup) :
    scopeFilterOrd scope ignore order = scope.filter (keepEntry ignore) := by
  rw [scopeFilterOrd_eq]
  refine List.filter_congr ?_
  intro e he
  by_cases hkeep : keepEntry ignore e = true
  · have hnot : e.1 ∉ badKeys ignore order := by
      intro hmem
      rcases (mem_badKeys ignore order e.1).mp hmem with ⟨e₁, he₁, hk₁, hfst₁⟩
      have he₁e : e₁ = e := entry_eq_of_nodup_keys scope h e₁ e (hperm.subset he₁) he hfst₁
      rw [he₁e, hkeep] at hk₁
      exact Bool.noConfusion hk₁
    simp [hnot, hkeep]
  · have hkeep₁ : keepEntry ignore e = false := Bool.eq_false_iff.mpr hkeep
    have hmem : e.1 ∈ badKeys ignore order :=
      (mem_badKeys ignore order e.1).mpr ⟨e, hperm.symm.subset he, hkeep₁, rfl⟩
    simp [hkeep₁, hmem]

theorem decoId_name (id : String) : decoId (Deco.name id) = some id := rfl

theorem decoId_call (funcId : String) : decoId (Deco.call funcId) = some funcId := rfl

theorem buildNewDecoList_filter (s : String) (decos : List Deco)
    (h : ∀ d ∈ decos, (decoId d).isSome = true) :
    buildNewDecoList (some s) decos
      = Except.ok (decos.filter (fun d => decide (decoId d ≠ some s))) := by
  induction decos with
  | nil => rfl
  | cons d rest ih =>
      have hrest : ∀ d₁ ∈ rest, (decoId d₁).isSome = true :=
        fun d₁ hd₁ => h d₁ (List.mem_cons_of_mem d hd₁)
      cases d with
      | name id =>
          simp only [buildNewDecoList, ih hrest, List.filter_cons]
          by_cases hid : id = s
          · rw [if_neg (by simp [decoId_name, hid]), if_neg (by simp [decoId_name, hid])]
          · rw [if_pos (by simp [decoId_name, hid]), if_pos (by simp [decoId_name, hid])]
      | call funcId =>
          simp only [buildNewDecoList, ih hrest, List.filter_cons]
          by_cases hid : funcId = s
          · rw [if_neg (by simp [decoId_call, hid]), if_neg (by simp [decoId_call, hid])]
          · rw [if_pos (by simp [decoId_call, hid]), if_pos (by simp [decoId_call, hid])]
      | attr obj field =>
          exact absurd (h (Deco.attr obj field) (List.mem_cons_self _ _))
            (by simp [decoId])
      | callAttr obj field =>
          exact absurd (h (Deco.callAttr obj field) (List.mem_cons_self _ _))
            (by simp [decoId])

/-- C1: during Tree Substitution, an identifier read (`Load` context) whose
name is present in the filtered Captured Scope is replaced by a literal node
carrying the captured value with the mapping entry kept; an identifier that
is a write target and present in the mapping is evicted (so no occurrence
visited later in traversal order is substituted) with the node left
unchanged; and on the worked example `a = X; X = 10; b = X; return (a, b)`
with captured `X = 5`, the read before the write is inlined to `5` while the
read after the write stays the variable `X`. -/
theorem C1_tree_substitution :
    (∀ (fd : Scope) (id : String) (v : PyValue), slookup fd id = some v →
        visitExpr fd (Expr.name id Ctx.load) = (Expr.const v, fd)) ∧
    (∀ (fd : Scope) (id : String) (ctx : Ctx), ctx ≠ Ctx.load →
        (slookup fd id).isSome = true →
        visitExpr fd (Expr.name id ctx) = (Expr.name id ctx, eraseKey fd id) ∧
        slookup (eraseKey fd id) id = none) ∧
    visitBody exampleScopeC1 exampleBodyC1 = (expectedBodyC1, []) := by
  refine ⟨?_, ?_, ?_⟩
  · intro fd id v h
    show visit_Name fd id Ctx.load = _
    unfold visit_Name
    rw [h]
    simp
  · intro fd id ctx hctx h
    refine ⟨?_, slookup_eraseKey_self fd id⟩
    show visit_Name fd id ctx = _
    unfold visit_Name
    rcases Option.isSome_iff_exists.mp h with ⟨v, hv⟩
    rw [hv]
    simp [hctx]
  · rfl

/-- Witness for C1: the worked-example scope `X = 5`, with a read of `X`
inlined and a write target of `X` evicting the entry. -/
theorem C1_tree_substitution_witness :
    visitExpr exampleScopeC1 (Expr.name "X" Ctx.load)
      = (Expr.const (intV 5), exampleScopeC1) ∧
    visitExpr exampleScopeC1 (Expr.name "X" Ctx.store)
      = (Expr.name "X" Ctx.store, eraseKey exampleScopeC1 "X") :=
  ⟨C1_tree_substitution.1 exampleScopeC1 "X" (intV 5) rfl,
   (C1_tree_substitution.2.1 exampleScopeC1 "X" Ctx.store (by decide) rfl).1⟩

/-- C2: Scope Capture merges the global and local namespaces into one
mapping; for a name bound in both, with `enforce_globals` false (the
default) the local binding wins, with `enforce_globals` true the global
binding wins; a name bound in only one namespace keeps that binding in
either mode. -/
theorem C2_scope_capture :
    ∀ (g l : Scope) (k : String), (skeys g).Nodup → (skeys l).Nodup →
      (∀ vg vl, slookup g k = some vg → slookup l k = some vl →
        slookup (captureScope false g l) k = some vl ∧
        slookup (captureScope true g l) k = some vg) ∧
      (∀ vg, slookup g k = some vg → slookup l k = none →
        slookup (captureScope false g l) k = some vg ∧
        slookup (captureScope true g l) k = some vg) ∧
      (∀ vl, slookup l k = some vl → slookup g k = none →
        slookup (captureScope false g l) k = some vl ∧
        slookup (captureScope true g l) k = some vl) := by
  intro g l k hg hl
  have hfalse : slookup (captureScope false g l) k =
      match slookup l k with
      | some v => some v
      | none => slookup g k := by
    simpa [captureScope] using slookup_dictUpdate g l k hl
  have htrue : slookup (captureScope true g l) k =
      match slookup g k with
      | some v => some v
      | none => slookup l k := by
    simpa [captureScope] using slookup_dictUpdate l g k hg
  refine ⟨?_, ?_, ?_⟩
  · intro vg vl hvg hvl
    rw [hfalse, htrue, hvg, hvl]
    exact ⟨rfl, rfl⟩
  · intro vg hvg hvl
    rw [hfalse, htrue, hvg, hvl]
    exact ⟨rfl, rfl⟩
  · intro vl hvl hvg
    rw [hfalse, htrue, hvg, hvl]
    exact ⟨rfl, rfl⟩

/-- Witness for C2: globals bind `n = 1` and `only_g = 3`, locals bind
`n = 2` and `only_l = 4`; the tie on `n` goes to the local value by default
and to the global value under `enforce_globals`. -/
theorem C2_scope_capture_witness :
    slookup (captureScope false [("n", intV 1), ("only_g", intV 3)]
        [("n", intV 2), ("only_l", intV 4)]) "n" = some (intV 2) ∧
    slookup (captureScope true [("n", intV 1), ("only_g", intV 3)]
        [("n", intV 2), ("only_l", intV 4)]) "n" = some (intV 1) :=
  (C2_scope_capture [("n", intV 1), ("only_g", intV 3)]
      [("n", intV 2), ("only_l", intV 4)] "n"
      (by decide) (by decide)).1 (intV 1) (intV 2) rfl rfl

/-- C7: Constant Filtering reduces the Captured Scope to exactly the entries
whose value is an instance of one of the allow-listed kinds (`int`, `float`,
`complex`, `str`, `tuple`, `bytes`, `bool`, `NoneType`) and whose key is not
in the Ignore Set, and the filtered result is the same for every examination
order of the entries. -/
theorem C7_constant_filtering :
    ∀ (scope : Scope) (ignore : List String), (skeys scope).Nodup →
      (∀ kv, kv ∈ scopeFilter scope ignore ↔
        kv ∈ scope ∧ isinstanceConstant kv.2 = true ∧ ignore.contains kv.1 = false) ∧
      (∀ order : List (String × PyValue), order.Perm scope →
        scopeFilterOrd scope ignore order = scopeFilter scope ignore) := by
  intro scope ignore h
  have hbase : scopeFilter scope ignore = scope.filter (keepEntry ignore) :=
    scopeFilterOrd_perm scope ignore scope (List.Perm.refl scope) h
  constructor
  · intro kv
    rw [hbase, List.mem_filter]
    simp [keepEntry, Bool.not_eq_true']
  · intro order hperm
    rw [hbase]
    exact scopeFilterOrd_perm scope ignore order hperm h

/-- Witness for C7: a scope holding an `int`, a `list` and an ignored `int`;
only the first entry survives, and a reversed examination order produces the
same filtered scope. -/
theorem C7_constant_filtering_witness :
    (("a", intV 1) ∈ scopeFilter
        [("a", intV 1), ("L", PyValue.builtin "list" 0), ("ig", intV 2)] ["ig"] ↔
      ("a", intV 1) ∈
          [("a", intV 1), ("L", PyValue.builtin "list" 0), ("ig", intV 2)] ∧
        isinstanceConstant (intV 1) = true ∧
        (["ig"] : List String).contains "a" = false) ∧
    scopeFilterOrd [("a", intV 1), ("L", PyValue.builtin "list" 0), ("ig", intV 2)]
        ["ig"]
        [("ig", intV 2), ("L", PyValue.builtin "list" 0), ("a", intV 1)]
      = scopeFilter [("a", intV 1), ("L", PyValue.builtin "list" 0), ("ig", intV 2)]
          ["ig"] :=
  ⟨(C7_constant_filtering
      [("a", intV 1), ("L", PyValue.builtin "list" 0), ("ig", intV 2)] ["ig"]
      (by decide)).1 ("a", intV 1),
   (C7_constant_filtering
      [("a", intV 1), ("L", PyValue.builtin "list" 0), ("ig", intV 2)] ["ig"]
      (by decide)).2
      [("ig", intV 2), ("L", PyValue.builtin "list" 0), ("a", intV 1)]
      (by decide)⟩

/-- C9: the `overwrite_with` option is never consumed: for any two values of
it, with every other input equal, the whole transformation pipeline
(capture, stripping, filtering, substitution, re-synthesis) produces the
identical result, including any raised error. -/
theorem C9_overwrite_with_unused :
    ∀ (e : Bool) (ow₁ ow₂ : Scope) (ign : List String) (g l : Scope)
      (node : TopNode) (fnc : PyObject) (ns : String),
      freezeTransform ⟨e, ow₁, ign⟩ g l node fnc ns =
        freezeTransform ⟨e, ow₂, ign⟩ g l node fnc ns :=
  fun _ _ _ _ _ _ _ _ _ => rfl

/-- C10: the allow-list test is an `isinstance` check, not an exact-type
check: a captured value of a strict subclass of an allow-listed type (its
own class name outside the allow-list, an allow-listed class in its mro)
whose name is not ignored survives Constant Filtering, and a read occurrence
of its name is inlined as a literal by Tree Substitution. -/
theorem C10_isinstance_subclass :
    ∀ (scope : Scope) (ignore : List String) (k : String) (v : PyValue),
      (skeys scope).Nodup → slookup scope k = some v →
      v.cls ∉ constantTypeNames →
      isinstanceConstant v = true →
      ignore.contains k = false →
      slookup (scopeFilter scope ignore) k = some v ∧
      visitExpr (scopeFilter scope ignore) (Expr.name k Ctx.load)
        = (Expr.const v, scopeFilter scope ignore) := by
  intro scope ignore k v hnd hl hstrict hinst hig
  have hbase : scopeFilter scope ignore = scope.filter (keepEntry ignore) :=
    scopeFilterOrd_perm scope ignore scope (List.Perm.refl scope) hnd
  have hkeep : keepEntry ignore (k, v) = true := by
    simp only [keepEntry]
    rw [hinst, hig]
    rfl
  have hs : slookup (scopeFilter scope ignore) k = some v := by
    rw [hbase]
    exact slookup_filter_keep scope (keepEntry ignore) k v hl hkeep
  refine ⟨hs, ?_⟩
  show visit_Name (scopeFilter scope ignore) k Ctx.load = _
  unfold visit_Name
  rw [hs]
  simp

/-- Witness for C10: a value of class `MyInt`, a strict subclass of `int`,
survives filtering and is inlined on a read. -/
theorem C10_isinstance_subclass_witness :
    slookup (scopeFilter [("n", myIntV)] []) "n" = some myIntV ∧
    visitExpr (scopeFilter [("n", myIntV)] []) (Expr.name "n" Ctx.load)
      = (Expr.const myIntV, scopeFilter [("n", myIntV)] []) :=
  C10_isinstance_subclass [("n", myIntV)] [] "n" myIntV
    (by decide) rfl (by decide) (by decide) rfl

/-- C3: the claim says a failed source retrieval or parse is re-raised as a
`FreezeError` naming the target and the underlying exception type.  The code
cannot do this: the handler at lines 91-93 builds its message from `type(e)`,
but the name bound by the handler is `error`, and `e` — a local assigned only
by the later `except AttributeError as e:` clause — is unbound there, so the
message construction itself raises `UnboundLocalError` (a `NameError`) and
the `FreezeError` is never raised.  This theorem exhibits the bug: for every
target and every underlying error type, the exception reaching the caller is
the `NameError` for `e`, never a `FreezeError`. -/
theorem C3_handler_raises_nameError :
    ∀ (qualname underlyingType : String),
      freezeSourcePhase false qualname underlyingType
        = Except.error (PyExn.nameError "e") ∧
      ∀ m, freezeExceptHandler qualname underlyingType ≠ PyExn.freezeError m := by
  intro q t
  constructor
  · show Except.error (freezeExceptHandler q t) = _
    unfold freezeExceptHandler
    rw [if_neg (by decide)]
  · intro m
    unfold freezeExceptHandler
    rw [if_neg (by decide)]
    exact fun h => PyExn.noConfusion h

/-- Witness for C3: a concrete failed retrieval. -/
theorem C3_handler_raises_nameError_witness :
    freezeSourcePhase false "mymod.f" "OSError"
        = Except.error (PyExn.nameError "e") ∧
      freezeExceptHandler "mymod.f" "OSError" ≠ PyExn.freezeError "anything" :=
  ⟨(C3_handler_raises_nameError "mymod.f" "OSError").1,
   (C3_handler_raises_nameError "mymod.f" "OSError").2 "anything"⟩

/-- C4: the claim says a class target completes without raising, with the
class body (including method bodies) substituted in the single walk and the
same class object returned.  The substitution part holds (second conjunct:
the method body read of `N` is inlined to `3`), but the operation cannot
complete: the rebinding line 158 reads `locals()[newFnc.name].__code__`, and
a class object has no `__code__` attribute, so every class target raises
`AttributeError` — contradicting the docstring (lines 5-8) and the
`isinstance(fnc, (FunctionType, type))` acceptance of classes at line 59. -/
theorem C4_class_target_raises :
    freezeTransform ⟨false, [], []⟩ [("Freeze", freezeFnObj), ("N", intV 3)] []
        (TopNode.classDef "C" [Deco.name "Freeze"]
          [Stmt.funcDefStmt "m" [Stmt.ret (Expr.name "N" Ctx.load)]])
        (PyObject.pyClass "C"
          (TgtBody.stmts [Stmt.funcDefStmt "m" [Stmt.ret (Expr.name "N" Ctx.load)]])
          none)
        "freezer_module"
      = Except.error (PyExn.attrError "type object C has no field code") ∧
    (visitBody
        (scopeFilter (captureScope false [("Freeze", freezeFnObj), ("N", intV 3)] []) [])
        [Stmt.funcDefStmt "m" [Stmt.ret (Expr.name "N" Ctx.load)]]).1
      = [Stmt.funcDefStmt "m" [Stmt.ret (Expr.const (intV 3))]] :=
  ⟨rfl, rfl⟩

/-- C5 counterexample: the claim says every decorator entry of any syntactic
form other than the operation itself is preserved.  On the decorator list
`[@mod.deco, @Freeze]` the rebuild loop at lines 112-120 keeps only
`ast.Name` and `ast.Call`-with-name entries, so the attribute-reference
decorator `@mod.deco` is silently dropped: the final list is `[]`, not
`[@mod.deco]`. -/
theorem C5_counterexample_attr_deco_dropped :
    stripSelfReference [("Freeze", freezeFnObj), ("mod", PyValue.builtin "module" 3)]
        (TopNode.funcDef "f" [Deco.attr "mod" "deco", Deco.name "Freeze"] [])
      = Except.ok { isNotAssign := true, newDecoList := [],
                    tbody := TgtBody.stmts [] } ∧
    [Deco.attr "mod" "deco"] ≠ ([] : List Deco) :=
  ⟨rfl, by decide⟩

/-- C5 amended: for decorator lists whose entries are all bare names or
calls with bare-name callees, once the first loop has found the name `s`
referring to the operation, the final decorator list equals the original
with every entry named `s` removed, in original order; entries of other
syntactic forms are not preserved (a bare attribute-reference decorator is
dropped, a call with an attribute callee raises `AttributeError`). -/
theorem C5_amended_name_call_preserved :
    ∀ (scope : Scope) (decos : List Deco) (n : String) (body : List Stmt)
      (s : String),
      (∀ d ∈ decos, (decoId d).isSome = true) →
      findSelf scope decos = Except.ok (some s) →
      stripSelfReference scope (TopNode.funcDef n decos body)
        = Except.ok { isNotAssign := true,
                      newDecoList := decos.filter (fun d => decide (decoId d ≠ some s)),
                      tbody := TgtBody.stmts body } := by
  intro scope decos n body s h1 h2
  show (match findSelf scope decos with
        | Except.error e => Except.error e
        | Except.ok selfName =>
            match buildNewDecoList selfName decos with
            | Except.error e => Except.error e
            | Except.ok ds =>
                Except.ok (⟨true, ds, TgtBody.stmts body⟩ : StripResult)) = _
  rw [h2]
  show (match buildNewDecoList (some s) decos with
        | Except.error e => Except.error e
        | Except.ok ds =>
            Except.ok (⟨true, ds, TgtBody.stmts body⟩ : StripResult)) = _
  rw [buildNewDecoList_filter s decos h1]

/-- Witness for C5 amended: `@d1`, `@Freeze`, `@d2(...)` become
`[@d1, @d2(...)]`. -/
theorem C5_amended_name_call_preserved_witness :
    stripSelfReference
        [("d1", PyValue.builtin "function" 1), ("Freeze", freezeFnObj),
         ("d2", PyValue.builtin "function" 2)]
        (TopNode.funcDef "f"
          [Deco.name "d1", Deco.name "Freeze", Deco.call "d2"] [])
      = Except.ok { isNotAssign := true,
                    newDecoList := [Deco.name "d1", Deco.call "d2"],
                    tbody := TgtBody.stmts [] } :=
  C5_amended_name_call_preserved
    [("d1", PyValue.builtin "function" 1), ("Freeze", freezeFnObj),
     ("d2", PyValue.builtin "function" 2)]
    [Deco.name "d1", Deco.name "Freeze", Deco.call "d2"] "f" [] "Freeze"
    (by decide) rfl

/-- C6 counterexample: the claim says the compiled module tree executes
within the target's original defining scope, so remaining global names
resolve against the target's defining namespace.  The `exec` at line 155
passes no namespaces, so it runs in the freezer's own frame: for an
assignment-style (lambda) target defined in `caller_module`, the returned
callable's global namespace is `freezer_module`, not `caller_module`. -/
theorem C6_counterexample_exec_in_freezer_frame :
    freezeTransform ⟨false, [], []⟩ [] []
        (TopNode.assignStmt "f" (some ("Freeze", Expr.name "Y" Ctx.load)))
        (PyObject.function (TgtBody.lamb (Expr.name "Y" Ctx.load)) "caller_module")
        "freezer_module"
      = Except.ok
          (PyObject.function (TgtBody.lamb (Expr.name "Y" Ctx.load)) "freezer_module") ∧
    "freezer_module" ≠ "caller_module" :=
  ⟨rfl, by decide⟩

/-- C6 amended: the mutated module tree executes in the freezer's own frame
(no namespace arguments are passed to `exec`).  For decorator-style targets
only the code object is transplanted onto the original callable, so
remaining global names still resolve against the target's defining
namespace; for assignment-style targets the returned callable is the newly
executed object and resolves remaining global names against the freezer
module's namespace. -/
theorem C6_amended_resynthesis_namespaces :
    ∀ (freezerNS defNS : String) (code newBody : TgtBody) (n : String)
      (ds : List Deco) (b : List Stmt) (tgt : String)
      (cv : Option (String × Expr)) (fnc : PyObject),
      rebind true (PyObject.function code defNS)
          (execDefine freezerNS (TopNode.funcDef n ds b) newBody)
        = Except.ok (PyObject.function newBody defNS) ∧
      rebind false fnc (execDefine freezerNS (TopNode.assignStmt tgt cv) newBody)
        = Except.ok (PyObject.function newBody freezerNS) :=
  fun _ _ _ _ _ _ _ _ _ _ => ⟨rfl, rfl⟩

/-- C8 counterexample: the claim asserts that whenever the parsed node has
no decorator list and is not an assignment whose value is a call to this
operation, the attribute-lookup failure propagates.  But the handler at
lines 126-127 only checks `isinstance(astTgt, ast.Assign)` and never
inspects the callee of the assigned call: for `f = wrapper(lambda: X)` —
an assignment whose value is a call to a different operation — the code
swallows the `AttributeError` and happily extracts the call's first
argument, raising nothing. -/
theorem C8_counterexample_foreign_call_accepted :
    stripSelfReference []
        (TopNode.assignStmt "f" (some ("wrapper", Expr.name "X" Ctx.load)))
      = Except.ok { isNotAssign := false, newDecoList := [],
                    tbody := TgtBody.lamb (Expr.name "X" Ctx.load) } :=
  rfl

/-- C8 amended: when the parsed node has no decorator list and is not an
assignment whose value is a call (to any callee — the code never checks the
callee), the underlying `AttributeError` propagates to the caller as is,
not normalized into a `FreezeError`: a bare expression statement re-raises
the `decorator_list` lookup failure, and an assignment of a non-call value
raises the `args` lookup failure from inside the handler. -/
theorem C8_amended_lookup_error_unwrapped :
    (∀ (scope : Scope) (tgt : String),
        stripSelfReference scope (TopNode.assignStmt tgt none)
          = Except.error (PyExn.attrError "value object has no field args")) ∧
    (∀ scope : Scope,
        stripSelfReference scope TopNode.exprStmt
          = Except.error (PyExn.attrError "object has no field decorator_list")) :=
  ⟨fun _ _ => rfl, fun _ => rfl⟩

end Freezer
